import Mathlib

/-!
Shallow embedding of the contact-book MVC application
(`src/source/models.ts`, `src/source/index.ts`, and the controller file)
and proofs of the specification's claims about it.

Modelling conventions:
* TypeScript numbers that the program uses as record ids are modelled as
  `Int` (they originate from JSON integers or from `generateNewId`).
* The in-memory `contacts` array is a `List Contact`.
* The backing JSON file is modelled by `FileState`: absent (ENOENT),
  unreadable (any read failure other than ENOENT, which includes a file
  whose bytes are not valid JSON — `jsonfile.readFile` rejects in that
  case with a non-ENOENT error), or successfully parsed JSON content.
* `async`/`Promise` sequencing is single-threaded in the source (the
  dispatcher awaits each store call), so operations are plain functions
  from state to state; a thrown exception is an `Except.error` paired
  with the state the object is left in at the throw point.
-/

namespace ContactsApp

/-- The `Contact` class of `models.ts`: `{ id: number, name: string }`. -/
structure Contact where
  id : Int
  name : String
deriving DecidableEq, Repr

/-- JSON values as the program manipulates them.  JSON numbers are
restricted to integers: the program only ever writes integer ids, and
the claims never depend on fractional values. -/
inductive Json where
  | null : Json
  | bool (b : Bool) : Json
  | num (n : Int) : Json
  | str (s : String) : Json
  | arr (items : List Json) : Json
  | obj (fields : List (String × Json)) : Json

/-- Property access `o[key]` on a JSON object: first field wins. -/
def lookupField : List (String × Json) → String → Option Json
  | [], _ => none
  | (k, v) :: rest, key => if k = key then some v else lookupField rest key

/-- Reads `item.id` as an integer.  In JS a missing or non-numeric field
would yield `undefined`, which `Int` cannot represent; we use `0` for
that branch.  No claim exercises it: files written by `save` always
carry integer `id` fields. -/
def fieldInt (field : Option Json) : Int :=
  match field with
  | some (Json.num n) => n
  | _ => 0

/-- Reads `item.name` as a string, with the same caveat as `fieldInt`. -/
def fieldStr (field : Option Json) : String :=
  match field with
  | some (Json.str s) => s
  | _ => ""

/-- The `data.map((item) => new Contact(item.id, item.name))` step of
`load`, for one array element. -/
def itemToContact (j : Json) : Contact :=
  match j with
  | Json.obj fields => ⟨fieldInt (lookupField fields "id"), fieldStr (lookupField fields "name")⟩
  | _ => ⟨0, ""⟩

/-- Defines `Json.isArray` so claims can speak about `Array.isArray`. -/
def Json.isArray : Json → Bool
  | Json.arr _ => true
  | _ => false

/-- The parsing step of `load`:
`Array.isArray(data) ? data.map(item => new Contact(item.id, item.name)) : []`. -/
def parseContacts (j : Json) : List Contact :=
  match j with
  | Json.arr items => items.map itemToContact
  | _ => []

/-- Serialization performed by `jsonfile.writeFile(filePath, contacts)`:
each `Contact` instance becomes the JSON object with its two fields. -/
def serializeContacts (l : List Contact) : Json :=
  Json.arr (l.map fun c => Json.obj [("id", Json.num c.id), ("name", Json.str c.name)])

/-- The state of the backing file as `load` can observe it. -/
inductive FileState where
  | absent : FileState
  | unreadable : FileState
  | content (j : Json) : FileState

/-- Errors thrown by the store: file errors re-thrown by `load`/`save`
(the spec's `IOFailure`) and the `Contact with ID ... not found` errors
of `updateContact`/`deleteContact` (the spec's `NotFound`). -/
inductive StoreError where
  | ioFailure : StoreError
  | notFound : StoreError
deriving DecidableEq, Repr

/-- `ContactsCollection.load()`: reads the file; ENOENT means start with
an empty list; any other failure is re-thrown and leaves `this.contacts`
as it was; parsed content replaces the cache. -/
def loadContacts (f : FileState) (prior : List Contact) :
    Except StoreError Unit × List Contact :=
  match f with
  | FileState.absent => (Except.ok (), [])
  | FileState.unreadable => (Except.error StoreError.ioFailure, prior)
  | FileState.content j => (Except.ok (), parseContacts j)

/-- The `reduce((max, contact) => Math.max(max, contact.id), 0)` step of
`generateNewId`. -/
def maxIdFold (l : List Contact) : Int :=
  l.foldl (fun m c => max m c.id) 0

/-- `ContactsCollection.generateNewId()`: one more than the fold above. -/
def generateNewId (l : List Contact) : Int :=
  maxIdFold l + 1

/-- Spec-side description of the id currently in use, following the
claim's words: the maximum `id` currently present, when any record is
present.  This is deliberately NOT translated from the source (compare
`maxIdFold`, which folds `max` starting from `0`): the two are compared
in the claimed refinement below. -/
def maxIdOf : List Contact → Option Int
  | [] => none
  | c :: rest =>
    match maxIdOf rest with
    | none => some c.id
    | some m => some (max c.id m)

/-- Spec-side fresh id, following the claim's words: `(max existing id)
+ 1`, or `1` if the collection is empty. -/
def specFreshId (l : List Contact) : Int :=
  match maxIdOf l with
  | none => 1
  | some m => m + 1

/-- `ContactsCollection.addContact(newContact)` without the trailing
`save()` (persistence is layered on below).  Returns the new array and,
when `generateNewId` was invoked, the id it produced.  Note that JS's
`!newContact.id` is true exactly when the id is `0` in this integer
model, and that the pushed object is `newContact` itself with its `id`
field possibly reassigned. -/
def addContact (c : Contact) (l : List Contact) : List Contact × Option Int :=
  if c.id = 0 then
    (l ++ [⟨generateNewId l, c.name⟩], some (generateNewId l))
  else if l.any fun x => x.id = c.id then
    (l ++ [⟨generateNewId l, c.name⟩], some (generateNewId l))
  else
    (l ++ [c], none)

/-- `ContactsCollection.getOneById(id)`: `contacts.find(c => c.id === id)`. -/
def getOneById (i : Int) (l : List Contact) : Option Contact :=
  l.find? fun c => c.id = i

/-- An `updates` object of type `Partial<Contact>`: each field present
or absent. -/
structure ContactPatch where
  id : Option Int
  name : Option String
deriving DecidableEq, Repr

/-- The spread merge `{ ...this.contacts[index], ...updates }`: a field
of `updates`, when present, overrides the existing one. -/
def mergeContact (c : Contact) (u : ContactPatch) : Contact :=
  ⟨u.id.getD c.id, u.name.getD c.name⟩

/-- The mutation step of `updateContact`: replace the first element whose
id matches (= `findIndex` + assignment); an unmatched id leaves the list
as is (the source throws before mutating in that case). -/
def applyUpdate (i : Int) (u : ContactPatch) : List Contact → List Contact
  | [] => []
  | c :: rest =>
    if c.id = i then mergeContact c u :: rest else c :: applyUpdate i u rest

/-- The mutation step of `deleteContact`:
`contacts.filter(contact => contact.id !== id)`. -/
def applyDelete (i : Int) (l : List Contact) : List Contact :=
  l.filter fun c => c.id ≠ i

/-- A `ContactsCollection` instance together with its backing file. -/
structure Store where
  contacts : List Contact
  file : FileState

/-- `ContactsCollection.save()`: overwrites the file with the serialized
in-memory array; memory is untouched.  Write failures are outside every
claim, so the success path is modelled. -/
def saveStore (s : Store) : Store :=
  ⟨s.contacts, FileState.content (serializeContacts s.contacts)⟩

/-- `addContact` followed by its `await this.save()`. -/
def addContactStore (c : Contact) (s : Store) : Store :=
  saveStore ⟨(addContact c s.contacts).1, s.file⟩

/-- `ContactsCollection.updateContact(id, updates)`: `findIndex`; on
`-1` throw `NotFound` with nothing mutated; otherwise merge in place and
`save()`. -/
def updateContactStore (i : Int) (u : ContactPatch) (s : Store) :
    Except StoreError Unit × Store :=
  if s.contacts.any fun c => c.id = i then
    (Except.ok (), saveStore ⟨applyUpdate i u s.contacts, s.file⟩)
  else
    (Except.error StoreError.notFound, s)

/-- `ContactsCollection.deleteContact(id)`: reassigns `this.contacts` to
the filtered array, then throws `NotFound` if the length did not change,
else `save()`s.  The filtered array is installed even on the throw path,
exactly as in the source. -/
def deleteContactStore (i : Int) (s : Store) : Except StoreError Unit × Store :=
  if (applyDelete i s.contacts).length = s.contacts.length then
    (Except.error StoreError.notFound, ⟨applyDelete i s.contacts, s.file⟩)
  else
    (Except.ok (), saveStore ⟨applyDelete i s.contacts, s.file⟩)

/-- The dispatcher's action tag: `"get"`, `"save"`, or anything else
(absent / unrecognized). -/
inductive Action where
  | get : Action
  | save : Action
  | other : Action
deriving DecidableEq, Repr

/-- The dispatcher's parameter bag.  `id = some i` models a `params.id`
that passes `typeof params.id === "number"` (and, where checked,
`!isNaN`); `name = some s` models a `params.name` that is a string, and
`none` a missing or non-string one. -/
structure Params where
  id : Option Int
  name : Option String
deriving DecidableEq, Repr

/-- The value `processOptions` resolves with:
`Contact[] | Contact | void` (an unmatched `getOneById` resolves with
`undefined`, folded into the `one` constructor's `Option`). -/
inductive DispatchResult where
  | one (c : Option Contact) : DispatchResult
  | many (cs : List Contact) : DispatchResult
  | nothing : DispatchResult
deriving DecidableEq, Repr

/-- Errors the dispatcher can reject with: its own validation error for
`save` without a usable name, or an error propagated from the store. -/
inductive CtlError where
  | validationError : CtlError
  | fromStore (e : StoreError) : CtlError
deriving DecidableEq, Repr

/-- The dispatcher's blank test `params.name.trim() === ""`: a string
trims to empty exactly when every character is whitespace. -/
def isBlank (s : String) : Bool :=
  s.data.all fun ch => ch.isWhitespace

/-- `ContactsController.processOptions(options)`.  For `get`, a numeric
id selects `getOneById` (a miss is only logged), else the full listing
is returned.  For `save`, a missing, non-string or blank-after-trim
name throws before the store is touched; otherwise a `Contact` is built
with id `params.id` when numeric, `0` otherwise, and `addContact` runs.
Other actions only log a warning. -/
def processOptions (a : Action) (p : Params) (s : Store) :
    Except CtlError DispatchResult × Store :=
  match a with
  | Action.get =>
    match p.id with
    | some i => (Except.ok (DispatchResult.one (getOneById i s.contacts)), s)
    | none => (Except.ok (DispatchResult.many s.contacts), s)
  | Action.save =>
    match p.name with
    | none => (Except.error CtlError.validationError, s)
    | some nm =>
      if isBlank nm then
        (Except.error CtlError.validationError, s)
      else
        (Except.ok DispatchResult.nothing, addContactStore ⟨p.id.getD 0, nm⟩ s)
  | Action.other => (Except.ok DispatchResult.nothing, s)

/-- One mutation call on the collection, for reasoning about arbitrary
sequences of operations. -/
inductive Op where
  | add (c : Contact) : Op
  | update (i : Int) (u : ContactPatch) : Op
  | delete (i : Int) : Op
deriving DecidableEq, Repr

/-- Effect of one operation on the in-memory array.  Failed update and
delete calls throw after leaving the array extensionally unchanged, so
their effect on the array is captured by the total functions above. -/
def applyOp (op : Op) (l : List Contact) : List Contact :=
  match op with
  | Op.add c => (addContact c l).1
  | Op.update i u => applyUpdate i u l
  | Op.delete i => applyDelete i l

/-- Runs a sequence of operations left to right. -/
def runOps : List Op → List Contact → List Contact
  | [], l => l
  | op :: ops, l => runOps ops (applyOp op l)

/-- Holds when an operation is not an update that supplies an `id`
field in its patch. -/
def opKeepsIds (op : Op) : Prop :=
  match op with
  | Op.update _ u => u.id = none
  | _ => True

/-- Runs a sequence of `addContact` calls, returning the final array
and the ids produced by `generateNewId`, in generation order. -/
def runAdds : List Contact → List Contact → List Contact × List Int
  | [], l => (l, [])
  | c :: cs, l =>
    ((runAdds cs (addContact c l).1).1,
      ((addContact c l).2).toList ++ (runAdds cs (addContact c l).1).2)

/-! For the aliasing claim about `getAllContacts`, the JS object graph
is made explicit: the heap stores `Contact` objects, a reference is a
heap index, and the collection's array holds references.  The spread
`[...this.contacts]` builds a fresh array containing the same
references. -/

/-- A reference to a `Contact` object on the heap. -/
abbrev Ref : Type := Nat

/-- The heap of live `Contact` objects, indexed by `Ref`. -/
abbrev Heap : Type := List Contact

/-- Dereferences `r` (total, with a dummy object off the heap). -/
def readRef (h : Heap) (r : Ref) : Contact :=
  List.getD h r ⟨0, ""⟩

/-- The field assignment `contact.name = nm` on the object behind `r`. -/
def setRefName (h : Heap) (r : Ref) (nm : String) : Heap :=
  match List.get? h r with
  | some c => List.set h r ⟨c.id, nm⟩
  | none => h

/-- `ContactsCollection.getAllContacts()` at the reference level:
`[...this.contacts]` yields a fresh array whose elements are the very
same references held by `this.contacts`. -/
def getAllContactsRefs (refs : List Ref) : List Ref :=
  refs

/-- The contents an observer sees when reading every record of an array
of references (what a deep-equality check inspects). -/
def deepRead (h : Heap) (refs : List Ref) : List Contact :=
  refs.map (readRef h)

/-! Auxiliary lemmas. -/

/-- The fold inside `generateNewId` never drops below its seed. -/
theorem le_foldl_max (l : List Contact) :
    ∀ a : Int, a ≤ l.foldl (fun m c => max m c.id) a := by
  induction l with
  | nil => intro a; exact le_refl a
  | cons x xs ih =>
    intro a
    exact le_trans (le_max_left a x.id) (ih (max a x.id))

/-- The fold inside `generateNewId` dominates every id it sees. -/
theorem mem_le_foldl_max (l : List Contact) (x : Contact) :
    x ∈ l → ∀ a : Int, x.id ≤ l.foldl (fun m c => max m c.id) a := by
  induction l with
  | nil => intro hx; cases hx
  | cons y ys ih =>
    intro hx a
    rcases List.mem_cons.mp hx with h | hmem
    · subst h
      exact le_trans (le_max_right a x.id) (le_foldl_max ys (max a x.id))
    · exact ih hmem (max a y.id)

theorem mem_le_maxIdFold (x : Contact) (l : List Contact) (hx : x ∈ l) :
    x.id ≤ maxIdFold l :=
  mem_le_foldl_max l x hx 0

theorem zero_le_maxIdFold (l : List Contact) : 0 ≤ maxIdFold l :=
  le_foldl_max l 0

/-- Every id already present is strictly below the generated one. -/
theorem lt_generateNewId (x : Contact) (l : List Contact) (hx : x ∈ l) :
    x.id < generateNewId l :=
  lt_of_le_of_lt (mem_le_maxIdFold x l hx) (lt_add_one _)

/-- Pulling one `max` out of the seed of the fold. -/
theorem foldl_max_seed (l : List Contact) :
    ∀ a b : Int, l.foldl (fun m c => max m c.id) (max a b) =
      max b (l.foldl (fun m c => max m c.id) a) := by
  induction l with
  | nil => intro a b; exact max_comm a b
  | cons x xs ih =>
    intro a b
    show xs.foldl _ (max (max a b) x.id) = max b (xs.foldl _ (max a x.id))
    rw [sup_right_comm a b x.id]
    exact ih (max a x.id) b

theorem maxIdFold_cons (c : Contact) (l : List Contact) :
    maxIdFold (c :: l) = max c.id (maxIdFold l) := by
  show l.foldl _ (max 0 c.id) = max c.id (l.foldl _ 0)
  exact foldl_max_seed l 0 c.id

/-- On collections of positive ids, the source's fold (seeded with `0`)
computes exactly the spec-side maximum. -/
theorem maxIdFold_eq_maxIdOf (l : List Contact) (hpos : ∀ x ∈ l, 0 < x.id) :
    (maxIdOf l = none ∧ maxIdFold l = 0) ∨
      ∃ m, maxIdOf l = some m ∧ maxIdFold l = m := by
  induction l with
  | nil => exact Or.inl ⟨rfl, rfl⟩
  | cons c rest ih =>
    have hp : ∀ x ∈ rest, 0 < x.id := fun x hx => hpos x (List.mem_cons_of_mem c hx)
    have hc : 0 < c.id := hpos c (List.mem_cons_self c rest)
    right
    rcases ih hp with ⟨h1, h2⟩ | ⟨m, h1, h2⟩
    · refine ⟨c.id, ?_, ?_⟩
      · simp [maxIdOf, h1]
      · rw [maxIdFold_cons, h2]
        exact max_eq_left hc.le
    · refine ⟨max c.id m, ?_, ?_⟩
      · simp [maxIdOf, h1]
      · rw [maxIdFold_cons, h2]

/-- On collections of positive ids, `generateNewId` is what the spec
says it is. -/
theorem generateNewId_eq_specFreshId (l : List Contact)
    (hpos : ∀ x ∈ l, 0 < x.id) : generateNewId l = specFreshId l := by
  rcases maxIdFold_eq_maxIdOf l hpos with ⟨h1, h2⟩ | ⟨m, h1, h2⟩ <;>
    simp [generateNewId, specFreshId, h1, h2]

/-- Decoding inverts encoding, record by record. -/
theorem parse_serialize (l : List Contact) :
    parseContacts (serializeContacts l) = l := by
  induction l with
  | nil => rfl
  | cons c rest ih =>
    show itemToContact (Json.obj [("id", Json.num c.id), ("name", Json.str c.name)]) ::
        (rest.map fun c => Json.obj [("id", Json.num c.id), ("name", Json.str c.name)]).map
          itemToContact = c :: rest
    refine congrArg₂ List.cons rfl ?_
    exact ih

/-- Appending a record with an id fresh for `l` keeps the ids nodup. -/
theorem nodup_append_fresh (l : List Contact) (c : Contact)
    (hl : (l.map Contact.id).Nodup) (hc : ∀ x ∈ l, x.id ≠ c.id) :
    ((l ++ [c]).map Contact.id).Nodup := by
  rw [List.map_append, List.nodup_append]
  refine ⟨hl, List.nodup_singleton c.id, ?_⟩
  intro a ha hb
  rcases List.mem_map.mp ha with ⟨x, hx, rfl⟩
  exact hc x hx (List.mem_singleton.mp hb)

/-- `addContact` preserves distinctness of ids. -/
theorem addContact_id_nodup (c : Contact) (l : List Contact)
    (hl : (l.map Contact.id).Nodup) :
    (((addContact c l).1).map Contact.id).Nodup := by
  unfold addContact
  split_ifs with h0 hdup
  · exact nodup_append_fresh l _ hl fun x hx => ne_of_lt (lt_generateNewId x l hx)
  · exact nodup_append_fresh l _ hl fun x hx => ne_of_lt (lt_generateNewId x l hx)
  · refine nodup_append_fresh l c hl fun x hx he => ?_
    exact hdup (List.any_eq_true.mpr ⟨x, hx, by simp [he]⟩)

/-- An update whose patch does not touch the `id` field leaves the id
sequence unchanged. -/
theorem applyUpdate_map_id (i : Int) (u : ContactPatch) (hu : u.id = none) :
    ∀ l : List Contact, (applyUpdate i u l).map Contact.id = l.map Contact.id := by
  intro l
  induction l with
  | nil => rfl
  | cons c rest ih =>
    by_cases hc : c.id = i
    · simp [applyUpdate, hc, mergeContact, hu]
    · simp only [applyUpdate, if_neg hc, List.map_cons, ih]

/-- `deleteContact`'s filter preserves distinctness of ids. -/
theorem applyDelete_id_nodup (i : Int) (l : List Contact)
    (hl : (l.map Contact.id).Nodup) :
    ((applyDelete i l).map Contact.id).Nodup :=
  List.Nodup.sublist (List.Sublist.map Contact.id (List.filter_sublist l)) hl

/-- Old records survive an `addContact` (it only appends). -/
theorem mem_addContact_fst (x c : Contact) (l : List Contact) (hx : x ∈ l) :
    x ∈ (addContact c l).1 := by
  unfold addContact
  split_ifs <;> exact List.mem_append_left _ hx

/-- When `addContact` reports a generated id, that id strictly exceeds
every id previously present and an appended record carries it. -/
theorem addContact_gen (c : Contact) (l : List Contact) (g : Int)
    (hg : (addContact c l).2 = some g) :
    (∀ x ∈ l, x.id < g) ∧ ∃ y ∈ (addContact c l).1, y.id = g := by
  unfold addContact at hg ⊢
  split_ifs at hg ⊢ with h1 h2
  · have hgen : generateNewId l = g := Option.some.inj hg
    refine ⟨fun x hx => hgen ▸ lt_generateNewId x l hx, ?_⟩
    exact ⟨⟨generateNewId l, c.name⟩,
      List.mem_append_right _ (List.mem_singleton.mpr rfl), hgen⟩
  · have hgen : generateNewId l = g := Option.some.inj hg
    refine ⟨fun x hx => hgen ▸ lt_generateNewId x l hx, ?_⟩
    exact ⟨⟨generateNewId l, c.name⟩,
      List.mem_append_right _ (List.mem_singleton.mpr rfl), hgen⟩

/-- An id present in the state is strictly below every id generated
later in a run of `addContact` calls. -/
theorem runAdds_lt_of_mem (cs : List Contact) :
    ∀ (l : List Contact) (x : Contact), x ∈ l →
      ∀ g ∈ (runAdds cs l).2, x.id < g := by
  induction cs with
  | nil =>
    intro l x _ g hg
    simp [runAdds] at hg
  | cons c cs ih =>
    intro l x hx g hg
    rcases List.mem_append.mp hg with h | h
    · have hsome : (addContact c l).2 = some g :=
        Option.mem_def.mp (Option.mem_toList.mp h)
      exact (addContact_gen c l g hsome).1 x hx
    · exact ih (addContact c l).1 x (mem_addContact_fst x c l hx) g h

/-- With pairwise-distinct ids, `find` returns exactly the member whose
id is asked for. -/
theorem getOneById_of_mem (l : List Contact) (hl : (l.map Contact.id).Nodup)
    (c : Contact) (hc : c ∈ l) : getOneById c.id l = some c := by
  induction l with
  | nil => cases hc
  | cons x rest ih =>
    rcases List.mem_cons.mp hc with h | hmem
    · subst h
      simp [getOneById]
    · have hmem' : c.id ∈ rest.map Contact.id := List.mem_map.mpr ⟨c, hmem, rfl⟩
      rw [List.map_cons, List.nodup_cons] at hl
      have hxid : ¬ x.id = c.id := fun he => hl.1 (he ▸ hmem')
      show List.find? _ (x :: rest) = some c
      rw [List.find?_cons_of_neg _ (by simpa using hxid)]
      exact ih hl.2 hmem

/-- Assigning the `name` field through a shared reference is seen by
every array that holds the reference. -/
theorem readRef_setRefName (h : Heap) (r : Ref) (nm : String)
    (hr : r < h.length) :
    readRef (setRefName h r nm) r = ⟨(readRef h r).id, nm⟩ := by
  have hg : List.get? h r = some (h.get ⟨r, hr⟩) := List.get?_eq_get hr
  unfold setRefName readRef
  rw [hg]
  rw [List.getD_eq_getD_get?, List.get?_set_eq_of_lt _ (by simpa using hr)]
  rw [List.getD_eq_getD_get?, hg]
  rfl

/-! Theorems for the specification's claims. -/

/-- Claim C1, counterexample: starting from the store `[{id:1,name:"a"},
{id:2,name:"b"}]`, whose ids are pairwise distinct, the single call
`updateContact(1, {id: 2})` succeeds and leaves two records with id `2`,
so the claimed invariant is not preserved when the partial update
supplies an `id` field. -/
theorem claim_C1_counterexample :
    (([⟨1, "a"⟩, ⟨2, "b"⟩] : List Contact).map Contact.id).Nodup ∧
      ¬ ((runOps [Op.update 1 ⟨some 2, none⟩] [⟨1, "a"⟩, ⟨2, "b"⟩]).map
          Contact.id).Nodup := by
  decide

/-- Claim C1 as amended: starting from any store whose ids are pairwise
distinct, every sequence of addContact, updateContact and deleteContact
operations in which no updateContact patch supplies an `id` field keeps
the ids of the in-memory sequence pairwise distinct. -/
theorem claim_C1 (ops : List Op) (l : List Contact)
    (hl : (l.map Contact.id).Nodup) (hops : ∀ op ∈ ops, opKeepsIds op) :
    ((runOps ops l).map Contact.id).Nodup := by
  induction ops generalizing l with
  | nil => exact hl
  | cons op ops ih =>
    rcases List.forall_mem_cons.mp hops with ⟨hop, hops2⟩
    refine ih (applyOp op l) ?_ hops2
    cases op with
    | add c => exact addContact_id_nodup c l hl
    | update i u =>
      show ((applyUpdate i u l).map Contact.id).Nodup
      rw [applyUpdate_map_id i u hop]
      exact hl
    | delete i => exact applyDelete_id_nodup i l hl

/-- Witness for claim C1 at a concrete run: add with generated id, add
with an explicit id, update without an `id` field, then a delete. -/
theorem claim_C1_witness :
    ((([] : List Contact).map Contact.id).Nodup ∧
      (∀ op ∈ [Op.add ⟨0, "Alice"⟩, Op.add ⟨7, "Bob"⟩,
        Op.update 7 ⟨none, some "Carol"⟩, Op.delete 1], opKeepsIds op)) ∧
    ((runOps [Op.add ⟨0, "Alice"⟩, Op.add ⟨7, "Bob"⟩,
        Op.update 7 ⟨none, some "Carol"⟩, Op.delete 1] []).map Contact.id).Nodup := by
  have hops : ∀ op ∈ [Op.add ⟨0, "Alice"⟩, Op.add ⟨7, "Bob"⟩,
      Op.update 7 ⟨none, some "Carol"⟩, Op.delete 1], opKeepsIds op := by
    simp [opKeepsIds]
  exact ⟨⟨by decide, hops⟩, claim_C1 _ [] (by decide) hops⟩

/-- Claim C2, counterexample: on the state `[{id:-3,name:"x"}]`
(reachable, since the dispatcher passes any numeric `--id` through),
adding `{id:-3,name:"y"}` triggers the duplicate branch and the stored
record receives id `1`, not `(max existing id) + 1 = -2` as the claim
requires for every collection state. -/
theorem claim_C2_counterexample :
    specFreshId [⟨-3, "x"⟩] = -2 ∧
      (addContact ⟨-3, "y"⟩ [⟨-3, "x"⟩]).1 = [⟨-3, "x"⟩, ⟨1, "y"⟩] ∧
      (addContact ⟨-3, "y"⟩ [⟨-3, "x"⟩]).1 ≠
        [⟨-3, "x"⟩, ⟨specFreshId [⟨-3, "x"⟩], "y"⟩] := by
  decide

/-- Claim C2 as amended: for every collection state whose ids are all
positive (the data model's invariant) and every record passed to
addContact, the record is appended at the end; it receives the id
`(max existing id) + 1` (`1` on the empty collection) if its id is zero
or already present, and keeps its supplied id otherwise. -/
theorem claim_C2 (l : List Contact) (c : Contact)
    (hpos : ∀ x ∈ l, 0 < x.id) :
    (addContact c l).1 =
      l ++ [⟨if c.id = 0 ∨ c.id ∈ l.map Contact.id then specFreshId l
        else c.id, c.name⟩] := by
  by_cases hcond : c.id = 0 ∨ c.id ∈ l.map Contact.id
  · rw [if_pos hcond]
    rcases hcond with h0 | hmem
    · unfold addContact
      rw [if_pos h0, generateNewId_eq_specFreshId l hpos]
    · have hdup : (l.any fun x => x.id = c.id) = true := by
        rcases List.mem_map.mp hmem with ⟨x, hx, hxid⟩
        exact List.any_eq_true.mpr ⟨x, hx, by simp [hxid]⟩
      unfold addContact
      by_cases h0 : c.id = 0
      · rw [if_pos h0, generateNewId_eq_specFreshId l hpos]
      · rw [if_neg h0, if_pos hdup, generateNewId_eq_specFreshId l hpos]
  · rw [if_neg hcond]
    push_neg at hcond
    obtain ⟨h0, hmem⟩ := hcond
    have hdup : ¬ (l.any fun x => x.id = c.id) = true := by
      intro hany
      rcases List.any_eq_true.mp hany with ⟨x, hx, hxe⟩
      exact hmem (List.mem_map.mpr ⟨x, hx, by simpa using hxe⟩)
    unfold addContact
    rw [if_neg h0, if_neg hdup]

/-- Witness for claim C2 at Scenario C: adding a record that explicitly
requests the already-taken id `1` stores it with id `2`. -/
theorem claim_C2_witness :
    (∀ x ∈ [(⟨1, "Alice"⟩ : Contact)], 0 < x.id) ∧
      (addContact ⟨1, "Bob"⟩ [⟨1, "Alice"⟩]).1 = [⟨1, "Alice"⟩, ⟨2, "Bob"⟩] := by
  refine ⟨by decide, ?_⟩
  rw [claim_C2 [⟨1, "Alice"⟩] ⟨1, "Bob"⟩ (by decide)]
  decide

/-- Claim C3: for every prior in-memory state, load of an absent file
succeeds and installs the empty sequence, while load of an existing but
unreadable/corrupt file fails with IOFailure and leaves the prior
in-memory state untouched. -/
theorem claim_C3 (prior : List Contact) :
    loadContacts FileState.absent prior = (Except.ok (), []) ∧
      loadContacts FileState.unreadable prior =
        (Except.error StoreError.ioFailure, prior) :=
  ⟨rfl, rfl⟩

/-- Claim C4: updateContact and deleteContact on an id absent from the
collection both fail with NotFound and leave the whole store, in-memory
sequence and backing file alike, unchanged (no save runs). -/
theorem claim_C4 (s : Store) (i : Int) (u : ContactPatch)
    (habs : ∀ c ∈ s.contacts, c.id ≠ i) :
    updateContactStore i u s = (Except.error StoreError.notFound, s) ∧
      deleteContactStore i s = (Except.error StoreError.notFound, s) := by
  have hany : (s.contacts.any fun c => c.id = i) = false := by
    rw [List.any_eq_false]
    intro c hc
    simp [habs c hc]
  have hdel : applyDelete i s.contacts = s.contacts := by
    rw [applyDelete, List.filter_eq_self]
    intro c hc
    simp [habs c hc]
  constructor
  · rw [updateContactStore, if_neg (by simp [hany])]
  · rw [deleteContactStore, if_pos (by rw [hdel]), hdel]

/-- Witness for claim C4: id `2` is absent from `[{id:1,name:"Alice"}]`;
both operations fail with NotFound and return the store unchanged. -/
theorem claim_C4_witness :
    (∀ c ∈ ([⟨1, "Alice"⟩] : List Contact), c.id ≠ 2) ∧
      updateContactStore 2 ⟨none, some "Bob"⟩ ⟨[⟨1, "Alice"⟩], FileState.absent⟩ =
        (Except.error StoreError.notFound, ⟨[⟨1, "Alice"⟩], FileState.absent⟩) ∧
      deleteContactStore 2 ⟨[⟨1, "Alice"⟩], FileState.absent⟩ =
        (Except.error StoreError.notFound, ⟨[⟨1, "Alice"⟩], FileState.absent⟩) := by
  have h := claim_C4 ⟨[⟨1, "Alice"⟩], FileState.absent⟩ 2 ⟨none, some "Bob"⟩
    (by decide)
  exact ⟨by decide, h.1, h.2⟩

/-- Claim C5: a save request whose name parameter is missing, not a
string, or blank after trimming fails with ValidationError and the
store, in-memory sequence and backing file alike, is untouched. -/
theorem claim_C5 (p : Params) (s : Store)
    (h : p.name = none ∨ ∃ nm, p.name = some nm ∧ isBlank nm = true) :
    processOptions Action.save p s = (Except.error CtlError.validationError, s) := by
  rcases h with h | ⟨nm, hnm, hbl⟩
  · simp [processOptions, h]
  · simp [processOptions, hnm, hbl]

/-- Witness for claim C5 at Scenario F: a name that is blank after
trimming is rejected and the store is unchanged. -/
theorem claim_C5_witness :
    ((some "  " : Option String) = none ∨
        ∃ nm, (some "  " : Option String) = some nm ∧ isBlank nm = true) ∧
      processOptions Action.save ⟨none, some "  "⟩ ⟨[⟨1, "Alice"⟩], FileState.absent⟩ =
        (Except.error CtlError.validationError,
          ⟨[⟨1, "Alice"⟩], FileState.absent⟩) := by
  refine ⟨Or.inr ⟨"  ", rfl, by decide⟩, ?_⟩
  exact claim_C5 ⟨none, some "  "⟩ ⟨[⟨1, "Alice"⟩], FileState.absent⟩
    (Or.inr ⟨"  ", rfl, by decide⟩)

/-- Claim C6: saving any sequence of records and loading the resulting
file into a fresh store (whose cache starts empty) succeeds and yields
exactly the saved sequence, field for field and in order. -/
theorem claim_C6 (l : List Contact) (f : FileState) :
    loadContacts (saveStore ⟨l, f⟩).file [] = (Except.ok (), l) := by
  show loadContacts (FileState.content (serializeContacts l)) [] = (Except.ok (), l)
  rw [loadContacts, parse_serialize]

/-- Claim C7, counterexample: with the store holding one record
`{id:1,name:"Alice"}`, grabbing the first element of one returned copy
and assigning its `name` to `"Bob"` changes what the store's own array
(and hence any other returned copy) reads back: the spread in
`getAllContacts` copies the array but shares the record objects. -/
theorem claim_C7_counterexample :
    deepRead (setRefName [⟨1, "Alice"⟩]
        ((getAllContactsRefs [0]).getD 0 0) "Bob") [0] ≠
      deepRead [⟨1, "Alice"⟩] [0] := by
  decide

/-- Claim C7 as amended: two consecutive getAllContacts calls return
deep-equal sequences, and replacing elements of the returned fresh
array cannot touch the store; but the returned array shares the record
objects with the store, so an in-place mutation of a record reached
through one returned copy is visible through the store's own array (and
through every other copy, which holds the same references). -/
theorem claim_C7 (h : Heap) (refs : List Ref) :
    deepRead h (getAllContactsRefs refs) = deepRead h refs ∧
      ∀ (k : Nat) (r : Ref) (nm : String), refs.get? k = some r →
        r < h.length →
        (deepRead (setRefName h r nm) refs).get? k =
          some ⟨(readRef h r).id, nm⟩ := by
  refine ⟨rfl, ?_⟩
  intro k r nm hk hr
  show ((refs.map (readRef (setRefName h r nm))).get? k) = _
  rw [List.get?_map, hk]
  exact congrArg some (readRef_setRefName h r nm hr)

/-- Witness for claim C7: the concrete mutation of the counterexample,
observed through the store's internal array. -/
theorem claim_C7_witness :
    (([0] : List Ref).get? 0 = some 0) ∧
      (0 < ([⟨1, "Alice"⟩] : Heap).length) ∧
      (deepRead (setRefName [⟨1, "Alice"⟩] 0 "Bob") [0]).get? 0 =
        some ⟨1, "Bob"⟩ := by
  refine ⟨rfl, by decide, ?_⟩
  exact (claim_C7 [⟨1, "Alice"⟩] [0]).2 0 0 "Bob" rfl (by decide)

/-- Claim C8: the dispatcher's get action with a numeric id returns the
matching record of getOneById, a miss being an ordinary `none` rather
than an error, and with no numeric id it returns the full listing; the
record returned is a member with the requested id, is THE matching
record when ids are distinct, and `none` occurs exactly when no record
matches. -/
theorem claim_C8 (s : Store) (p : Params) :
    (∀ i : Int, p.id = some i →
      processOptions Action.get p s =
        (Except.ok (DispatchResult.one (getOneById i s.contacts)), s) ∧
      (∀ c, getOneById i s.contacts = some c → c ∈ s.contacts ∧ c.id = i) ∧
      (∀ c ∈ s.contacts, c.id = i → (s.contacts.map Contact.id).Nodup →
        getOneById i s.contacts = some c) ∧
      (getOneById i s.contacts = none ↔ ∀ c ∈ s.contacts, c.id ≠ i)) ∧
    (p.id = none →
      processOptions Action.get p s =
        (Except.ok (DispatchResult.many s.contacts), s)) := by
  constructor
  · intro i hi
    refine ⟨by simp [processOptions, hi], ?_, ?_, ?_⟩
    · intro c hc
      exact ⟨List.mem_of_find?_eq_some hc, by simpa using List.find?_some hc⟩
    · intro c hc hcid hnd
      exact hcid ▸ getOneById_of_mem s.contacts hnd c hc
    · constructor
      · intro hnone c hc
        simpa using List.find?_eq_none.mp hnone c hc
      · intro hall
        apply List.find?_eq_none.mpr
        intro c hc
        simpa using hall c hc
  · intro hi
    simp [processOptions, hi]

/-- Witness for claim C8: a get request for id `1` against the store
`[{id:1,name:"Alice"}]` returns that record without error. -/
theorem claim_C8_witness :
    ((⟨some 1, none⟩ : Params).id = some 1) ∧
      processOptions Action.get ⟨some 1, none⟩ ⟨[⟨1, "Alice"⟩], FileState.absent⟩ =
        (Except.ok (DispatchResult.one (some ⟨1, "Alice"⟩)),
          ⟨[⟨1, "Alice"⟩], FileState.absent⟩) := by
  refine ⟨rfl, ?_⟩
  have h := ((claim_C8 ⟨[⟨1, "Alice"⟩], FileState.absent⟩ ⟨some 1, none⟩).1 1 rfl).1
  rw [h]
  rfl

/-- Claim C9: over any sequence of addContact calls (and no deletions),
the ids handed out by generateNewId are strictly increasing in the
order they are generated. -/
theorem claim_C9 (cs l : List Contact) :
    ((runAdds cs l).2).Pairwise (fun a b => a < b) := by
  induction cs generalizing l with
  | nil => exact List.Pairwise.nil
  | cons c cs ih =>
    show (((addContact c l).2).toList ++
      (runAdds cs (addContact c l).1).2).Pairwise _
    rw [List.pairwise_append]
    refine ⟨?_, ih (addContact c l).1, ?_⟩
    · cases hgen : (addContact c l).2 <;> simp
    · intro a ha b hb
      have hsome : (addContact c l).2 = some a :=
        Option.mem_def.mp (Option.mem_toList.mp ha)
      obtain ⟨-, y, hy, hyid⟩ := addContact_gen c l a hsome
      exact hyid ▸ runAdds_lt_of_mem cs (addContact c l).1 y hy b hb

/-- Claim C10: a backing file holding valid JSON that is not an array
loads successfully and silently installs the empty sequence, whatever
the prior in-memory state was. -/
theorem claim_C10 (j : Json) (prior : List Contact)
    (h : j.isArray = false) :
    loadContacts (FileState.content j) prior = (Except.ok (), []) := by
  cases j <;> first | rfl | simp [Json.isArray] at h

/-- Witness for claim C10: a file holding the JSON number `5` loads as
the empty collection with no error. -/
theorem claim_C10_witness :
    (Json.num 5).isArray = false ∧
      loadContacts (FileState.content (Json.num 5)) [⟨1, "Alice"⟩] =
        (Except.ok (), []) :=
  ⟨rfl, claim_C10 (Json.num 5) [⟨1, "Alice"⟩] rfl⟩

end ContactsApp
